import Mathlib

/-!
Verification development for the browser-query orchestration service
(`app/graph/state.py`, `app/graph/nodes.py`, `app/graph/workflow.py`,
`app/services/agent_service.py`, `app/tools/browser_tools.py`).

The reasoning loop is a LangGraph `StateGraph` whose state is the
`AgentState` TypedDict.  At runtime LangGraph passes each node a plain
dict holding only the keys that some node (or the initial input) has
assigned; reading an unassigned key with `state["k"]` raises `KeyError`,
while `state.get("k")` yields `None`.  We embed that partial dict as a
structure whose optional fields are `Option`-valued with `none` meaning
"key absent" (for fields read only via `.get`, absent and `None`
coincide).  Nodes return partial updates (`StateUpdate`); LangGraph's
`add_messages` channel appends message updates and every other key is
overwritten when present in the update.  External collaborators (the
language model, the remote browser backend) are an explicit environment
`Env` of opaque total functions, and side effects on the backend are
recorded as an `Effect` list.
-/

/-- Python dict of tool-call arguments, modelled as an association list of
string keys to string values. -/
def ToolArgs : Type := List (String × String)

instance : DecidableEq ToolArgs := fun a b => List.hasDecEq a b

/-- A structured tool-call request carried by an AI message: name, argument
mapping and correlation id (`tool_call["name"]`, `["args"]`, `["id"]`). -/
structure ToolCall where
  name : String
  args : ToolArgs
  id : String
deriving DecidableEq

/-- The four message variants of the run log: Human / System / AI / Tool
(langchain `HumanMessage`, `SystemMessage`, `AIMessage` with its
`tool_calls` list, `ToolMessage` with `tool_call_id` and tool `name`). -/
inductive Msg where
  | human (content : String)
  | system (content : String)
  | ai (content : String) (tool_calls : List ToolCall)
  | tool (content : String) (tool_call_id : String) (name : String)
deriving DecidableEq

/-- The `AgentState` TypedDict of `app/graph/state.py`.  Every field except
`messages` is `Option`-wrapped with `none` meaning the dict key was never
assigned (LangGraph only materialises assigned channels).  `messages` is the
append-only log; it is present in every input this service builds. -/
structure AgentState where
  messages : List Msg
  session_id : Option String := none
  agent_id : Option String := none
  query : Option String := none
  current_page_id : Option String := none
  page_analysis : Option String := none
  iteration_count : Option Nat := none
  max_iterations : Option Nat := none
  error : Option String := none
deriving DecidableEq

/-- A partial state update returned by a graph node.  A `none` field means
the key is absent from the returned dict.  No node of `app/graph/nodes.py`
ever returns the keys `agent_id`, `query`, `page_analysis` or
`max_iterations`; `max_iterations` is kept here (always `none`) so that
fact is statable. -/
structure StateUpdate where
  messages : List Msg := []
  session_id : Option String := none
  current_page_id : Option String := none
  iteration_count : Option Nat := none
  max_iterations : Option Nat := none
  error : Option String := none
deriving DecidableEq

/-- LangGraph merge for one non-message channel: the update's value when the
key is in the update, otherwise the old value. -/
def mergeField {α : Type} (upd old : Option α) : Option α :=
  match upd with
  | some v => some v
  | none => old

/-- Apply a node's partial update to the state: `add_messages` appends, every
other assigned key overwrites. -/
def applyUpdate (s : AgentState) (u : StateUpdate) : AgentState :=
  { messages := s.messages ++ u.messages
    session_id := mergeField u.session_id s.session_id
    agent_id := s.agent_id
    query := s.query
    current_page_id := mergeField u.current_page_id s.current_page_id
    page_analysis := s.page_analysis
    iteration_count := mergeField u.iteration_count s.iteration_count
    max_iterations := mergeField u.max_iterations s.max_iterations
    error := mergeField u.error s.error }

/-- Python exceptions that the embedded code can raise. -/
inductive PyErr where
  | keyError (key : String)
  | indexError
  | attributeError
  | recursionLimitReached
deriving DecidableEq

/-- Python's `str(e)` for the exceptions we model (`str(KeyError('k'))` is
`"'k'"`). -/
def pyErrStr : PyErr → String
  | .keyError k => "'" ++ k ++ "'"
  | .indexError => "list index out of range"
  | .attributeError => "attribute error"
  | .recursionLimitReached => "Recursion limit reached"

/-- Truthiness of `state.get(key)` for an optional string key: `None` and the
empty string are falsy. -/
def pyTruthyOptStr : Option String → Bool
  | none => false
  | some s => !s.isEmpty

/-- Python `str.startswith`, over the character lists of the strings. -/
def pyStartsWith (s prefx : String) : Bool :=
  prefx.data.isPrefixOf s.data

/-- Python's `sub in s` substring test, over character lists. -/
def pyContains (s sub : String) : Bool :=
  (List.range (s.data.length + 1)).any (fun i => sub.data.isPrefixOf (s.data.drop i))

/-- Observable calls on the remote browser backend. -/
inductive Effect where
  | createSessionCall
  | deleteSessionCall (session_id : String)
deriving DecidableEq

/-- The opaque external collaborators of one run: the backend's
`create_session` outcome, the model (message history to AI reply content and
tool calls), and the registered tools' result texts.  All are total: the
`@tool` wrappers in `app/tools/browser_tools.py` catch every exception and
return an in-band string. -/
structure Env where
  createSession : Except String String
  llm : List Msg → String × List ToolCall
  toolRun : String → ToolArgs → String

/-- The system message content built by the initialize node
(`app/graph/nodes.py` lines 42-73), with its two interpolations. -/
def system_content (session_id agent_id : String) : String :=
  "You are a browser automation agent. You help users find information on the web.\n\n                                  SESSION CONTEXT:\n                                  - session_id: "
    ++ session_id
    ++ "\n                                  - agent_id: "
    ++ agent_id
    ++ "\n\n                                  You MUST use session_id \""
    ++ session_id
    ++ "\" for all tool calls.\n\n                                  AVAILABLE TOOLS:\n                                  - navigate: Open a URL (returns a page_id)\n                                  - analyze_page: Get page structure (CSS classes, IDs, headings, interactive elements)\n                                  - get_accessibility_tree: Get semantic page structure (roles, names, hierarchy)\n                                  - get_page_content: Get raw HTML (use sparingly — prefer analyze_page + execute_js)\n                                  - execute_js: Run JavaScript on the page\n                                  - search_text: Search visible page text for a keyword (use for quick matching)\n                                  - capture_screenshot: Take a screenshot\n                                  - close_page: Close a page\n\n                                  WORKFLOW:\n                                  1. Navigate to the relevant URL\n                                  2. ALWAYS call analyze_page after navigating — this shows you what's actually on the page\n                                  3. Use the analysis to write informed JavaScript selectors (never guess selectors)\n                                  4. If analyze_page isn't enough, use get_accessibility_tree for semantic structure\n                                  5. Extract the specific information needed\n                                  6. Provide a clear, concise answer\n\n                                  CRITICAL RULES:\n                                  - NEVER guess CSS selectors. Always analyze the page first.\n                                  - If execute_js fails, check the analysis and try different selectors.\n                                  - For keyword matching, prefer search_text before writing custom selectors.\n                                  - Keep your responses focused on answering the user's question.\n                                  - Do not describe what you're doing step by step in your final answer — just give the information."

/-- The tool names registered on the graph: the list returned by
`create_browser_tools` (`app/tools/browser_tools.py` lines 385-393), which
is what `GraphNodes.__init__` builds `tools_by_name` from. -/
def registryNames : List String :=
  ["navigate", "analyze_page", "get_accessibility_tree", "get_page_content",
   "execute_js", "search_text", "capture_screenshot", "close_page"]

/-- Result text of one requested tool call in `GraphNodes.tools`: the
registered tool's result when the name is in `tools_by_name`, otherwise the
synthesized `Error: Unknown tool '{name}'` marker. -/
def toolResult (env : Env) (tc : ToolCall) : String :=
  if registryNames.contains tc.name then env.toolRun tc.name tc.args
  else "Error: Unknown tool '" ++ tc.name ++ "'"

/-- The `page_id` parse in `GraphNodes.tools`:
`content.split("page_id:")[1].split(",")[0].strip()`. -/
def parsePageId (content : String) : String :=
  ((((content.splitOn "page_id:").getD 1 "").splitOn ",").headD "").trim

/-- The `current_page_id` update of `GraphNodes.tools`: the loop over the
produced tool messages keeps the parse of the last `navigate` result whose
text contains `page_id:`. -/
def pageIdUpdate (tool_messages : List Msg) : Option String :=
  tool_messages.foldl
    (fun acc m =>
      match m with
      | .tool content _ name =>
          if name == "navigate" && pyContains content "page_id:" then
            some (parsePageId content)
          else acc
      | _ => acc)
    none

/-- The five nodes of the compiled graph. -/
inductive ExecNode where
  | init
  | agent
  | tools
  | post_process
  | cleanup
deriving DecidableEq

/-- One node's body: the effects it performs on the backend and either the
partial state update it returns or the exception it raises.  Translated from
`GraphNodes` in `app/graph/nodes.py`:

* `initialize` (constructor `init`) reads `state["agent_id"]` inside its `try`, so when that key
  is unassigned the `KeyError` is caught by the node's own `except` and the
  error branch runs without the backend ever being called;
* `agent` invokes the model and then reads `state["iteration_count"]`, which
  raises when unassigned;
* `tools` maps the last AI message's tool calls to tool messages, unknown
  names included, and computes the `current_page_id` side update;
* `post_process` returns `{}`;
* `cleanup` attempts `delete_session` only when `state.get("session_id")` is
  set, and swallows any deletion failure, so it always returns `{}`. -/
def nodeUpdate (env : Env) (node : ExecNode) (s : AgentState) :
    List Effect × Except PyErr StateUpdate :=
  match node with
  | .init =>
      match s.agent_id with
      | none =>
          ([], .ok { error := some ("Failed to create browser session: "
                        ++ pyErrStr (.keyError "agent_id")) })
      | some aid =>
          match env.createSession with
          | .ok sid =>
              ([.createSessionCall],
               .ok { session_id := some sid
                     messages := [.system (system_content sid aid)]
                     iteration_count := some 0 })
          | .error msg =>
              ([.createSessionCall],
               .ok { error := some ("Failed to create browser session: " ++ msg) })
  | .agent =>
      let response := env.llm s.messages
      match s.iteration_count with
      | none => ([], .error (.keyError "iteration_count"))
      | some n =>
          ([], .ok { messages := [.ai response.1 response.2]
                     iteration_count := some (n + 1) })
  | .tools =>
      match s.messages.getLast? with
      | some (.ai _ tcs) =>
          let tool_messages := tcs.map
            (fun tc => Msg.tool (toolResult env tc) tc.id tc.name)
          ([], .ok { messages := tool_messages
                     current_page_id := pageIdUpdate tool_messages })
      | some _ => ([], .error .attributeError)
      | none => ([], .error .indexError)
  | .post_process => ([], .ok {})
  | .cleanup =>
      match s.session_id with
      | some sid => ([.deleteSessionCall sid], .ok {})
      | none => ([], .ok {})

/-- The conditional edge after the `agent` node (`should_continue` in
`app/graph/workflow.py`): initialization error check, then the iteration
cap, then the last message's tool calls. -/
def should_continue (s : AgentState) : Except PyErr String :=
  if pyTruthyOptStr s.error then .ok "cleanup"
  else
    match s.iteration_count with
    | none => .error (.keyError "iteration_count")
    | some ic =>
        match s.max_iterations with
        | none => .error (.keyError "max_iterations")
        | some mi =>
            if ic ≥ mi then .ok "cleanup"
            else
              match s.messages.getLast? with
              | none => .error .indexError
              | some (.ai _ tcs) => if !tcs.isEmpty then .ok "tools" else .ok "cleanup"
              | some _ => .ok "cleanup"

/-- The edge set of `build_agent`: `initialize → agent` unconditionally,
`agent` through `should_continue` (mapping `"tools"`/`"cleanup"`),
`tools → post_process → agent`, `cleanup → END`. -/
def routeAfter (node : ExecNode) (s : AgentState) : Except PyErr (Option ExecNode) :=
  match node with
  | .init => .ok (some .agent)
  | .agent =>
      match should_continue s with
      | .error e => .error e
      | .ok d =>
          if d = "tools" then .ok (some .tools)
          else if d = "cleanup" then .ok (some .cleanup)
          else .error (.keyError d)
  | .tools => .ok (some .post_process)
  | .post_process => .ok (some .agent)
  | .cleanup => .ok none

/-- Execute one node at a state: run its body, merge its update, and compute
the next node from the graph's edges.  An exception from the node body or
from the conditional edge aborts (`.error`). -/
def nodeExec (env : Env) (node : ExecNode) (s : AgentState) :
    List Effect × Except PyErr (AgentState × Option ExecNode) :=
  match nodeUpdate env node s with
  | (effs, .error e) => (effs, .error e)
  | (effs, .ok u) =>
      let s' := applyUpdate s u
      match routeAfter node s' with
      | .error e => (effs, .error e)
      | .ok next => (effs, .ok (s', next))

/-- Outcome of (a prefix of) one graph execution: the nodes entered in order,
each with the state it was entered at; the backend effects; the last merged
state; and the uncaught exception when the run aborted (`none` = ran to
`END`). -/
structure RunResult where
  trace : List (ExecNode × AgentState)
  effects : List Effect
  state : AgentState
  err : Option PyErr
deriving DecidableEq

/-- Fuel-indexed execution of the compiled graph from a node.  Fuel models
LangGraph's recursion limit: running out raises `recursionLimitReached`. -/
def runAux (env : Env) : Nat → ExecNode → AgentState → RunResult
  | 0, _, s => ⟨[], [], s, some .recursionLimitReached⟩
  | fuel + 1, node, s =>
      match nodeExec env node s with
      | (effs, .error e) => ⟨[(node, s)], effs, s, some e⟩
      | (effs, .ok (s', none)) => ⟨[(node, s)], effs, s', none⟩
      | (effs, .ok (s', some next)) =>
          let r := runAux env fuel next s'
          ⟨(node, s) :: r.trace, effs ++ r.effects, r.state, r.err⟩

/-- LangGraph's default recursion limit for `ainvoke`/`astream_events`. -/
def recursionLimit : Nat := 25

/-- How many times a given node occurs in a trace. -/
def countNode (x : ExecNode) (tr : List (ExecNode × AgentState)) : Nat :=
  tr.countP (fun e => e.1 == x)

/-- The `HumanMessage` content built by `AgentService.execute_query`
(`f"Agent ID: {agent_id}\n{'Session name: ' + session_name if session_name
else ''}Task: {query}"`; an empty `session_name` is falsy). -/
def initialHuman (query agent_id : String) (session_name : Option String) : String :=
  "Agent ID: " ++ agent_id ++ "\n"
    ++ (match session_name with
        | some sn => if sn.isEmpty then "" else "Session name: " ++ sn
        | none => "")
    ++ "Task: " ++ query

/-- The `HumanMessage` content built by `AgentService.stream_query` (same as
the batch one except `chr(10)` is appended after the session name). -/
def initialHumanStream (query agent_id : String) (session_name : Option String) : String :=
  "Agent ID: " ++ agent_id ++ "\n"
    ++ (match session_name with
        | some sn => if sn.isEmpty then "" else "Session name: " ++ sn ++ "\n"
        | none => "")
    ++ "Task: " ++ query

/-- The initial graph input of `AgentService.execute_query`: a dict holding
only the `messages` key. -/
def initialInputs (query agent_id : String) (session_name : Option String) : AgentState :=
  { messages := [.human (initialHuman query agent_id session_name)] }

/-- The initial graph input of `AgentService.stream_query`: likewise only
`messages`. -/
def initialInputsStream (query agent_id : String) (session_name : Option String) :
    AgentState :=
  { messages := [.human (initialHumanStream query agent_id session_name)] }

/-- One full graph execution as `AgentService.execute_query` invokes it. -/
def runReal (env : Env) (query agent_id : String) (session_name : Option String) :
    RunResult :=
  runAux env recursionLimit .init (initialInputs query agent_id session_name)

/-- A hypothetical complete initial state carrying every key the `AgentState`
TypedDict declares (`iteration_count = 0`, `max_iterations = M`, no error).
Used to analyse the loop and edge logic of `workflow.py`/`nodes.py` in
isolation from the service layer's missing-key initialization. -/
def initialFull (query agent_id : String) (M : Nat) : AgentState :=
  { messages := [.human (initialHuman query agent_id none)]
    session_id := none
    agent_id := some agent_id
    query := some query
    current_page_id := none
    page_analysis := none
    iteration_count := some 0
    max_iterations := some M
    error := none }

/-- Graph execution from the complete initial state. -/
def runFull (env : Env) (fuel : Nat) (query agent_id : String) (M : Nat) : RunResult :=
  runAux env fuel .init (initialFull query agent_id M)

/-- One user-visible workflow step (`WorkflowStep` in
`app/models/schemas.py`). -/
structure WorkflowStep where
  step_number : Nat
  action : String
  detail : String
  success : Bool := true
deriving DecidableEq

/-- Python `repr` of a string-to-string dict, for the generic arm of
`_format_tool_detail` (`f"Calling {tool_name} with {tool_args}"`). -/
def pyDictRepr (args : ToolArgs) : String :=
  "\x7b" ++ String.intercalate ", "
      (args.map (fun p => "'" ++ p.1 ++ "': '" ++ p.2 ++ "'"))
    ++ "\x7d"

/-- `AgentService._format_tool_detail`: the fixed per-tool-name formatting
rule for a step's human-readable detail text. -/
def format_tool_detail (tool_name : String) (tool_args : ToolArgs) : String :=
  match tool_name with
  | "create_session" =>
      let agent_id := (tool_args.lookup "agent_id").getD "unknown"
      "Creating browser session for agent '" ++ agent_id ++ "'"
  | "navigate" =>
      let url := (tool_args.lookup "url").getD "unknown"
      "Navigating to " ++ url
  | "get_page_content" => "Extracting page content"
  | "execute_js" =>
      let script := (tool_args.lookup "script").getD ""
      let preview := if script.length > 80 then script.take 80 ++ "..." else script
      "Executing JavaScript: " ++ preview
  | "capture_screenshot" => "Capturing screenshot of current page"
  | "close_page" => "Closing page"
  | "close_session" => "Closing session (preserving data)"
  | "delete_session" => "Deleting session (final cleanup)"
  | _ => "Calling " ++ tool_name ++ " with " ++ pyDictRepr tool_args

/-- The `steps[-1]` mutation of `AgentService._extract_steps` on a
failure-marker tool result: flip the last step's `success` to `False` and
append the error text to its detail; the empty list is left alone (the
branch is guarded by `and steps`). -/
def failLast (content : String) : List WorkflowStep → List WorkflowStep
  | [] => []
  | [s] => [{ s with success := false, detail := s.detail ++ " → " ++ content }]
  | s :: s2 :: rest => s :: failLast content (s2 :: rest)

/-- The `WorkflowStep(...)` value `_extract_steps` appends for one tool
call at one step number. -/
def mkStep (n : Nat) (tc : ToolCall) : WorkflowStep :=
  { step_number := n
    action := tc.name
    detail := format_tool_detail tc.name tc.args
    success := true }

/-- The inner loop of `_extract_steps` over one AI message's tool calls:
append one numbered step per call, advancing the step number. -/
def appendCallSteps (acc : List WorkflowStep × Nat) (tcs : List ToolCall) :
    List WorkflowStep × Nat :=
  tcs.foldl
    (fun (a : List WorkflowStep × Nat) tc => (a.1 ++ [mkStep a.2 tc], a.2 + 1))
    acc

/-- One iteration of the `_extract_steps` scan over the message log,
carrying the step list built so far and the next step number.  An AI message
with tool calls appends one numbered step per call; a Tool message whose
text starts with the failure marker, scanned while the list is non-empty,
mutates the most recently appended step. -/
def extractStepsScan (acc : List WorkflowStep × Nat) (m : Msg) :
    List WorkflowStep × Nat :=
  match m with
  | .ai _ tcs =>
      if tcs.isEmpty then acc
      else appendCallSteps acc tcs
  | .tool content _ _ =>
      if acc.1.isEmpty then acc
      else if pyStartsWith content "Error" then (failLast content acc.1, acc.2)
      else acc
  | _ => acc

/-- `AgentService._extract_steps`: forward scan of the completed message
log, step numbering starting at 1. -/
def extract_steps (messages : List Msg) : List WorkflowStep :=
  (messages.foldl extractStepsScan ([], 1)).1

/-- The backward scan of `AgentService._extract_answer` (the Python loop
walks `reversed(messages)`; this function receives that reversed list). -/
def extractAnswerGo : List Msg → String
  | [] => "The agent completed but did not produce a final answer."
  | .ai content tcs :: rest => if tcs.isEmpty then content else extractAnswerGo rest
  | _ :: rest => extractAnswerGo rest

/-- `AgentService._extract_answer`: the text of the last AI message with no
tool calls, or the fixed sentinel. -/
def extract_answer (messages : List Msg) : String :=
  extractAnswerGo messages.reverse

/-- `AgentService._extract_session_id`: scan the Tool messages for the first
text containing `session_id:` and parse
`content.split("session_id:")[1].split(",")[0].strip()`. -/
def extract_session_id : List Msg → Option String
  | [] => none
  | .tool content _ _ :: rest =>
      if pyContains content "session_id:" then
        some (((((content.splitOn "session_id:").getD 1 "").splitOn ",").headD "").trim)
      else extract_session_id rest
  | _ :: rest => extract_session_id rest

/-- The batch response schema (`QueryResponse` in `app/models/schemas.py`,
restricted to the fields the service fills). -/
structure QueryResponse where
  query : String
  agent_id : String
  session_id : Option String := none
  answer : String
  steps : List WorkflowStep := []
  success : Bool := true
  error : Option String := none
deriving DecidableEq

/-- `AgentService.execute_query`: invoke the graph on an input holding only
`messages`; on success assemble steps, answer and session id from the final
message log; any exception is caught once and reported as a failed
response. -/
def execute_query (env : Env) (query agent_id : String)
    (session_name : Option String) : QueryResponse :=
  let r := runReal env query agent_id session_name
  match r.err with
  | none =>
      { query := query
        agent_id := agent_id
        session_id := extract_session_id r.state.messages
        answer := extract_answer r.state.messages
        steps := extract_steps r.state.messages
        success := true }
  | some e =>
      { query := query
        agent_id := agent_id
        answer := "I encountered an error while processing your request: " ++ pyErrStr e
        steps := []
        success := false
        error := some (pyErrStr e) }

/-- The internal lifecycle events `stream_query` consumes from
`astream_events(..., version="v2")`, restricted to the fields it reads:
the event kind, the `name`, and the relevant `data` entry.  A model-token
chunk carries its text content and whether it holds tool-call fragments. -/
inductive InternalEvent where
  | onToolStart (name : String) (input : ToolArgs)
  | onToolEnd (name : String) (output : String)
  | onChatModelStream (content : String) (hasToolCalls : Bool)
  | onChatModelStart
  | otherEvent
deriving DecidableEq

/-- The externally visible stream events with their payload fields
(`StreamEventType` plus the `data` dict each yield fills). -/
inductive ExtEvent where
  | step_start (step_number : Nat) (action detail : String)
  | step_complete (step_number : Nat) (action : String)
  | step_error (step_number : Nat) (action error : String)
  | thinking (detail : String)
  | answer_chunk (chunk : String)
  | answer_complete (answer : String)
  | done (success : Bool)
  | error (error : String)
  | cleanup (detail : String)
deriving DecidableEq

/-- One iteration of `stream_query`'s event loop, carrying the emitted
events, the step counter and the accumulated answer buffer.  The
`answer_chunk` yield is commented out in the source, so a model token only
grows the buffer. -/
def streamStep (acc : List ExtEvent × Nat × String) (ev : InternalEvent) :
    List ExtEvent × Nat × String :=
  match ev with
  | .onToolStart name input =>
      (acc.1 ++ [.step_start (acc.2.1 + 1) name (format_tool_detail name input)],
       acc.2.1 + 1, acc.2.2)
  | .onToolEnd name output =>
      if pyStartsWith output "Error" then
        (acc.1 ++ [.step_error acc.2.1 name output], acc.2.1, acc.2.2)
      else
        (acc.1 ++ [.step_complete acc.2.1 name], acc.2.1, acc.2.2)
  | .onChatModelStream content hasToolCalls =>
      if !content.isEmpty && !hasToolCalls then (acc.1, acc.2.1, acc.2.2 ++ content)
      else acc
  | .onChatModelStart =>
      if acc.2.1 > 0 then (acc.1 ++ [.thinking "Agent is reasoning..."], acc.2.1, acc.2.2)
      else acc
  | .otherEvent => acc

/-- `AgentService.stream_query` as a translation of the internal event feed:
the feed is the ordered list of events `astream_events` delivered, together
with the exception (if any) that ended it.  When the feed is exhausted
without failure the two synthesized events are appended; an exception is
caught once at the outer boundary and becomes a single terminal `error`
event after whatever was already yielded. -/
def stream_query (events : List InternalEvent) (exn : Option String) : List ExtEvent :=
  let folded := events.foldl streamStep ([], 0, "")
  match exn with
  | none => folded.1 ++ [.answer_complete folded.2.2, .done true]
  | some m => folded.1 ++ [.error m]

/-- The accumulated answer buffer of a feed: the concatenation of the
model-token texts that are non-empty and carry no tool-call fragments. -/
def accumAnswer : List InternalEvent → String
  | [] => ""
  | .onChatModelStream content hasToolCalls :: rest =>
      (if !content.isEmpty && !hasToolCalls then content else "") ++ accumAnswer rest
  | _ :: rest => accumAnswer rest

/-- The events the body of the stream loop can yield (everything except the
synthesized terminal events). -/
def isBodyEvent : ExtEvent → Bool
  | .step_start _ _ _ => true
  | .step_complete _ _ => true
  | .step_error _ _ _ => true
  | .thinking _ => true
  | _ => false

/-- Shared fact: the error message `initialize` (constructor `init`) records in every run the
service starts, because its `state["agent_id"]` read raises inside the
node's own `try` (`str(KeyError('agent_id')) = "'agent_id'"`). -/
def initErrorMsg : String := "Failed to create browser session: 'agent_id'"

/-- Every run the service starts takes the same two-node path: `initialize` (constructor `init`)
catches its own `KeyError('agent_id')` and records `error`; `agent` invokes
the model and then aborts on `state["iteration_count"]`.  Shared by several
claim theorems below. -/
theorem runReal_spec (env : Env) (query agent_id : String)
    (session_name : Option String) :
    runReal env query agent_id session_name =
      { trace := [(.init, initialInputs query agent_id session_name),
                  (.agent, { initialInputs query agent_id session_name with
                               error := some initErrorMsg })]
        effects := []
        state := { initialInputs query agent_id session_name with
                     error := some initErrorMsg }
        err := some (.keyError "iteration_count") } := rfl

/-- The `max_iterations` field of whatever update a node returns. -/
def updMaxIter : Except PyErr StateUpdate → Option Nat
  | .ok u => u.max_iterations
  | .error _ => none

/-- No node's returned update carries the `max_iterations` key. -/
theorem nodeUpdate_max_none (env : Env) (node : ExecNode) (s : AgentState) :
    updMaxIter (nodeUpdate env node s).2 = none := by
  cases node with
  | init =>
      rcases hA : s.agent_id with _ | aid
      · simp [nodeUpdate, hA, updMaxIter]
      · rcases hC : env.createSession with msg | sid <;>
          simp [nodeUpdate, hA, hC, updMaxIter]
  | agent =>
      rcases hI : s.iteration_count with _ | n <;> simp [nodeUpdate, hI, updMaxIter]
  | tools =>
      rcases hL : s.messages.getLast? with _ | m
      · simp [nodeUpdate, hL, updMaxIter]
      · cases m <;> simp [nodeUpdate, hL, updMaxIter]
  | post_process => simp [nodeUpdate, updMaxIter]
  | cleanup =>
      rcases hS : s.session_id with _ | sid <;> simp [nodeUpdate, hS, updMaxIter]

/-- Inversion of a successful `nodeExec`: the node's update succeeded, the
new state is the merge, and the next node comes from the edge function. -/
theorem nodeExec_ok_inv (env : Env) (node : ExecNode) (s : AgentState)
    (effs : List Effect) (s' : AgentState) (nxt : Option ExecNode)
    (h : nodeExec env node s = (effs, .ok (s', nxt))) :
    ∃ u, nodeUpdate env node s = (effs, .ok u) ∧ s' = applyUpdate s u
      ∧ routeAfter node s' = .ok nxt := by
  unfold nodeExec at h
  rcases hU : nodeUpdate env node s with ⟨e2, res⟩
  rw [hU] at h
  cases res with
  | error e => simp at h
  | ok u =>
      simp only at h
      rcases hR : routeAfter node (applyUpdate s u) with e | nx
      · rw [hR] at h; simp at h
      · rw [hR] at h
        simp only [Prod.mk.injEq, Except.ok.injEq] at h
        obtain ⟨he, hs, hn⟩ := h
        subst he hs hn
        exact ⟨u, rfl, rfl, hR⟩

/-- A successful node execution never changes `max_iterations`. -/
theorem nodeExec_max_eq (env : Env) (node : ExecNode) (s : AgentState)
    (effs : List Effect) (s' : AgentState) (nxt : Option ExecNode)
    (h : nodeExec env node s = (effs, .ok (s', nxt))) :
    s'.max_iterations = s.max_iterations := by
  obtain ⟨u, hU, hs, _⟩ := nodeExec_ok_inv env node s effs s' nxt h
  have hm : u.max_iterations = none := by
    have h2 := nodeUpdate_max_none env node s
    rw [hU] at h2; exact h2
  rw [hs]
  simp [applyUpdate, mergeField, hm]

/-- Only `cleanup` routes to `END`. -/
theorem routeAfter_none (node : ExecNode) (s : AgentState)
    (h : routeAfter node s = .ok none) : node = .cleanup := by
  cases node with
  | agent =>
      simp only [routeAfter] at h
      split at h
      · simp at h
      · split at h
        · simp at h
        · split at h
          · simp at h
          · simp at h
  | init => simp [routeAfter] at h
  | tools => simp [routeAfter] at h
  | post_process => simp [routeAfter] at h
  | cleanup => rfl

/-- No edge ever re-enters `initialize` (constructor `init`). -/
theorem routeAfter_no_reentry (node : ExecNode) (s : AgentState)
    (nx : ExecNode) (h : routeAfter node s = .ok (some nx)) :
    nx ≠ .init := by
  intro hx
  subst hx
  cases node with
  | agent =>
      simp only [routeAfter] at h
      split at h
      · simp at h
      · split at h
        · simp at h
        · split at h
          · simp at h
          · simp at h
  | init => simp [routeAfter] at h
  | tools => simp [routeAfter] at h
  | post_process => simp [routeAfter] at h
  | cleanup => simp [routeAfter] at h

/-- Effect of a successful node update on `iteration_count`: `agent`
increments it by exactly one, every other node leaves it unchanged (for
`init`, whose success branch writes 0, the incoming count is required to be
0, which is how every run starts). -/
theorem nodeUpdate_ok_iter (env : Env) (node : ExecNode) (s : AgentState)
    (effs : List Effect) (u : StateUpdate) (n : Nat)
    (hn : s.iteration_count = some n) (h0 : node = .init → n = 0)
    (h : nodeUpdate env node s = (effs, .ok u)) :
    mergeField u.iteration_count s.iteration_count
      = some (if node = .agent then n + 1 else n) := by
  cases node with
  | init =>
      have hz : n = 0 := h0 rfl
      subst hz
      rcases hA : s.agent_id with _ | aid
      · simp only [nodeUpdate, hA, Prod.mk.injEq, Except.ok.injEq] at h
        obtain ⟨-, hu⟩ := h
        subst hu
        simp [mergeField, hn]
      · rcases hC : env.createSession with msg | sid <;>
          simp only [nodeUpdate, hA, hC, Prod.mk.injEq, Except.ok.injEq] at h <;>
          obtain ⟨-, hu⟩ := h <;> subst hu <;> simp [mergeField, hn]
  | agent =>
      simp only [nodeUpdate, hn, Prod.mk.injEq, Except.ok.injEq] at h
      obtain ⟨-, hu⟩ := h
      subst hu
      simp [mergeField, hn]
  | tools =>
      rcases hL : s.messages.getLast? with _ | m
      · simp [nodeUpdate, hL] at h
      · cases m <;> simp only [nodeUpdate, hL, Prod.mk.injEq, Except.ok.injEq] at h
        case ai content tcs =>
          obtain ⟨-, hu⟩ := h
          subst hu
          simp [mergeField, hn]
        all_goals exact absurd h.2 (by simp)
  | post_process =>
      simp only [nodeUpdate, Prod.mk.injEq, Except.ok.injEq] at h
      obtain ⟨-, hu⟩ := h
      subst hu
      simp [mergeField, hn]
  | cleanup =>
      rcases hS : s.session_id with _ | sid <;>
        simp only [nodeUpdate, hS, Prod.mk.injEq, Except.ok.injEq] at h <;>
        obtain ⟨-, hu⟩ := h <;> subst hu <;> simp [mergeField, hn]

/-- Inversion of the conditional edge choosing `"tools"`: the error check
passed, both counters were assigned, and the count was strictly below the
cap. -/
theorem should_continue_tools_inv (s : AgentState)
    (h : should_continue s = .ok "tools") :
    ∃ ic mi, s.iteration_count = some ic ∧ s.max_iterations = some mi ∧ ic < mi := by
  by_cases hE : pyTruthyOptStr s.error = true
  · rw [should_continue, if_pos hE] at h
    exact absurd (Except.ok.inj h) (by decide)
  · rcases hI : s.iteration_count with _ | ic
    · rw [should_continue, if_neg hE, hI] at h
      simp at h
    · rcases hM : s.max_iterations with _ | mi
      · rw [should_continue, if_neg hE, hI, hM] at h
        simp at h
      · by_cases hge : ic ≥ mi
        · exfalso
          rw [should_continue, if_neg hE, hI, hM] at h
          simp only [hge, if_true] at h
          exact absurd (Except.ok.inj h) (by decide)
        · exact ⟨ic, mi, rfl, rfl, by omega⟩

/-- Trace invariant for graph execution: any per-node precondition closed
under the step relation holds at every entered node. -/
theorem runAux_trace_pre (env : Env) (Pre : ExecNode → AgentState → Prop)
    (hstep : ∀ node s effs s' nxt, Pre node s →
        nodeExec env node s = (effs, .ok (s', some nxt)) → Pre nxt s') :
    ∀ fuel node s, Pre node s → ∀ e ∈ (runAux env fuel node s).trace, Pre e.1 e.2 := by
  intro fuel
  induction fuel with
  | zero =>
      intro node s _ e he
      simp [runAux] at he
  | succ f ih =>
      intro node s hp e he
      rcases hx : nodeExec env node s with ⟨effs, res⟩
      cases res with
      | error err =>
          simp only [runAux, hx] at he
          simp at he
          subst he
          exact hp
      | ok p =>
          rcases p with ⟨s', nxt⟩
          cases nxt with
          | none =>
              simp only [runAux, hx] at he
              simp at he
              subst he
              exact hp
          | some nx =>
              simp only [runAux, hx] at he
              simp at he
              rcases he with he | he
              · subst he; exact hp
              · exact ih nx s' (hstep node s effs s' nx hp hx) e he

/-- Completed executions count reasoning passes exactly: when a run from a
node whose state carries `iteration_count = n` (with `n = 0` when starting
at `init`) reaches `END` without an exception, the final count is `n` plus
the number of `agent` entries in the trace. -/
theorem runAux_iter_count (env : Env) :
    ∀ (fuel : Nat) (node : ExecNode) (s : AgentState) (n : Nat),
      s.iteration_count = some n → (node = .init → n = 0) →
      (runAux env fuel node s).err = none →
      (runAux env fuel node s).state.iteration_count
        = some (n + countNode .agent (runAux env fuel node s).trace) := by
  intro fuel
  induction fuel with
  | zero =>
      intro node s n hn h0 herr
      simp [runAux] at herr
  | succ f ih =>
      intro node s n hn h0 herr
      rcases hx : nodeExec env node s with ⟨effs, res⟩
      cases res with
      | error err => simp [runAux, hx] at herr
      | ok p =>
          rcases p with ⟨s', nxt⟩
          obtain ⟨u, hU, hs, hR⟩ := nodeExec_ok_inv env node s effs s' nxt hx
          have hiter : s'.iteration_count = some (if node = .agent then n + 1 else n) := by
            rw [hs]
            show mergeField u.iteration_count s.iteration_count = _
            exact nodeUpdate_ok_iter env node s effs u n hn h0 hU
          cases nxt with
          | none =>
              have hnode : node = .cleanup := routeAfter_none node s' hR
              subst hnode
              simp only [runAux, hx]
              rw [hiter]
              simp [countNode]
          | some nx =>
              have hnx : nx ≠ .init := routeAfter_no_reentry node s' nx hR
              simp only [runAux, hx] at herr ⊢
              have hrec := ih nx s' (if node = .agent then n + 1 else n) hiter
                  (fun hh => absurd hh hnx) herr
              rw [hrec]
              congr 1
              simp only [countNode, List.countP_cons]
              by_cases hna : node = .agent
              · subst hna
                simp only [if_pos rfl]
                simp
                omega
              · have hb : ((node, s).1 == ExecNode.agent) = false := by
                  simp [hna]
                rw [if_neg hna]
                simp [hb]

/-- C1, code-level evidence: the CLEANUP step does not execute exactly once
per run — it never executes at all.  In every run the service starts
(whatever the backend, model or tools do), `initialize` records the
`agent_id` key error, the run then aborts inside the reasoning node on the
unassigned `iteration_count` key, the trace contains no `cleanup` entry, and
no backend call (creation or deletion) is ever attempted — contradicting the
cleanup node's own docstring ("This is a STRUCTURAL guarantee ... The
session always gets cleaned up."). -/
theorem C1_cleanup_never_executes (env : Env) (query agent_id : String)
    (session_name : Option String) :
    countNode .cleanup (runReal env query agent_id session_name).trace = 0
    ∧ (runReal env query agent_id session_name).err
        = some (.keyError "iteration_count")
    ∧ (runReal env query agent_id session_name).effects = [] := by
  rw [runReal_spec]
  exact ⟨rfl, rfl, rfl⟩

/-- A concrete environment whose backend refuses session creation. -/
def envBackendDown : Env :=
  { createSession := .error "Could not connect to browser infrastructure"
    llm := fun _ => ("", [])
    toolRun := fun _ _ => "" }

/-- C3, counterexample: in a run against a backend that would refuse session
creation, initialization fails (the Run State's `error` field is set by
INIT), yet the state machine does not transition from INIT directly to
CLEANUP: the unconditional `initialize → agent` edge enters REASON, and
CLEANUP is never entered at all. -/
theorem C3_counterexample :
    (runReal envBackendDown "find the pricing page" "agent-1" none).state.error
        = some initErrorMsg
    ∧ (runReal envBackendDown "find the pricing page" "agent-1" none).trace.map
          Prod.fst = [.init, .agent]
    ∧ countNode .cleanup
        (runReal envBackendDown "find the pricing page" "agent-1" none).trace = 0 := by
  rw [runReal_spec]
  exact ⟨rfl, rfl, rfl⟩

/-- C3, amended: in every run the service starts, initialization fails (its
`state["agent_id"]` read raises inside the node's `try`, so remote session
creation is never even attempted) and the `error` field is set on the Run
State; the graph does not jump to CLEANUP but follows the unconditional
INIT → REASON edge, and REASON aborts on the unassigned `iteration_count`
key; the service boundary catches that exception once and the batch result
reports `success=false` with `error` populated and an empty steps list. -/
theorem C3_init_failure_reaches_reason (env : Env) (query agent_id : String)
    (session_name : Option String) :
    (runReal env query agent_id session_name).state.error = some initErrorMsg
    ∧ (runReal env query agent_id session_name).trace.map Prod.fst = [.init, .agent]
    ∧ (runReal env query agent_id session_name).err
        = some (.keyError "iteration_count")
    ∧ execute_query env query agent_id session_name =
        { query := query
          agent_id := agent_id
          session_id := none
          answer := "I encountered an error while processing your request: 'iteration_count'"
          steps := []
          success := false
          error := some "'iteration_count'" } := by
  rw [runReal_spec]
  exact ⟨rfl, rfl, rfl, rfl⟩

/-- C4: the initial state built by `execute_query` (and by `stream_query`)
holds only the `messages` key; no graph node's update ever carries the
`max_iterations` key; and on any state whose `error` is unset and whose
`iteration_count` is assigned but whose `max_iterations` never was — exactly
the shape the conditional edge sees after a first reasoning pass of a run
whose initialization succeeded — `should_continue`'s cap comparison cannot
be evaluated: the `state["max_iterations"]` lookup raises. -/
theorem C4_max_iterations_never_assigned :
    (∀ query agent_id session_name,
        (initialInputs query agent_id session_name).max_iterations = none
      ∧ (initialInputs query agent_id session_name).iteration_count = none
      ∧ (initialInputs query agent_id session_name).session_id = none
      ∧ (initialInputs query agent_id session_name).agent_id = none
      ∧ (initialInputs query agent_id session_name).query = none
      ∧ (initialInputs query agent_id session_name).current_page_id = none
      ∧ (initialInputs query agent_id session_name).page_analysis = none
      ∧ (initialInputs query agent_id session_name).error = none
      ∧ (initialInputsStream query agent_id session_name).max_iterations = none)
    ∧ (∀ env node s, updMaxIter (nodeUpdate env node s).2 = none)
    ∧ (∀ messages sid aid q cp pa (n : Nat),
        should_continue
          { messages := messages, session_id := sid, agent_id := aid, query := q
            current_page_id := cp, page_analysis := pa, iteration_count := some n
            max_iterations := none, error := none }
          = .error (.keyError "max_iterations")) := by
  refine ⟨?_, ?_, ?_⟩
  · intro q a sn
    exact ⟨rfl, rfl, rfl, rfl, rfl, rfl, rfl, rfl, rfl⟩
  · exact nodeUpdate_max_none
  · intro ms sid aid q cp pa n
    rfl

/-- C10: the batch response's `session_id` is derived solely by scanning
Tool-message texts for the `session_id:` substring — when no Tool message
contains it, the scan yields `None`; and in fact every batch response the
service produces carries `session_id = None` even in runs against a backend
that would create a session. -/
theorem C10_session_id_text_scan_only :
    (∀ messages : List Msg,
        (∀ content tcid name, Msg.tool content tcid name ∈ messages →
            pyContains content "session_id:" = false) →
        extract_session_id messages = none)
    ∧ (∀ env query agent_id session_name,
        (execute_query env query agent_id session_name).session_id = none) := by
  constructor
  · intro messages
    induction messages with
    | nil => intro _; rfl
    | cons m rest ih =>
        intro h
        have hrest : ∀ content tcid name, Msg.tool content tcid name ∈ rest →
            pyContains content "session_id:" = false :=
          fun c t nm hm => h c t nm (List.mem_cons_of_mem m hm)
        cases m with
        | tool content tcid nm =>
            have hc := h content tcid nm (List.mem_cons_self _ _)
            simpa [extract_session_id, hc] using ih hrest
        | human c => simpa [extract_session_id] using ih hrest
        | system c => simpa [extract_session_id] using ih hrest
        | ai c tcs => simpa [extract_session_id] using ih hrest
  · intro env q a sn
    rfl

/-- C10, witness: a run log with registered tools' result texts (which
contain no `session_id:` substring) makes the scan yield `None`. -/
theorem C10_witness :
    extract_session_id
      [Msg.tool "Navigated successfully. page_id: p1, url: https://example.com"
          "call-1" "navigate",
       Msg.ai "Done." []] = none := by
  apply C10_session_id_text_scan_only.1
  intro content tcid name hm
  simp only [List.mem_cons, List.not_mem_nil, or_false] at hm
  rcases hm with hm | hm
  · rw [Msg.tool.injEq] at hm
    obtain ⟨h1, -, -⟩ := hm
    subst h1
    decide
  · simp at hm

/-- Inversion of the edge set: only the conditional edge after `agent`
routes into `tools`, and only when `should_continue` chose `"tools"`. -/
theorem routeAfter_tools_inv (node : ExecNode) (s : AgentState)
    (h : routeAfter node s = .ok (some .tools)) :
    node = .agent ∧ should_continue s = .ok "tools" := by
  cases node with
  | agent =>
      simp only [routeAfter] at h
      split at h
      · simp at h
      · rename_i d heq
        split at h
        · rename_i hcond
          subst hcond
          exact ⟨rfl, heq⟩
        · split at h
          · simp at h
          · simp at h
  | init => simp [routeAfter] at h
  | tools => simp [routeAfter] at h
  | post_process => simp [routeAfter] at h
  | cleanup => simp [routeAfter] at h

/-- C2: the reasoning node increments `iteration_count` by exactly one per
pass (returning the model's reply as the appended message); the conditional
edge routes to CLEANUP whenever `iteration_count` equals `max_iterations`,
whatever the last message's tool calls are; and over any graph execution
started from a complete initial state (both counters assigned, cap `M`):
a run reaching END without exception ends with `iteration_count` equal to
the number of reasoning passes in its trace, and the `tools` (DISPATCH)
node is only ever entered in a state whose `iteration_count` is strictly
below `M`. -/
theorem C2_iteration_discipline :
    (∀ env s (n : Nat), s.iteration_count = some n →
        (nodeUpdate env .agent s).2
          = .ok { messages := [.ai (env.llm s.messages).1 (env.llm s.messages).2]
                  iteration_count := some (n + 1) })
    ∧ (∀ s (n : Nat), pyTruthyOptStr s.error = false → s.iteration_count = some n →
        s.max_iterations = some n → should_continue s = .ok "cleanup")
    ∧ (∀ env fuel query agent_id M,
        (runFull env fuel query agent_id M).err = none →
        (runFull env fuel query agent_id M).state.iteration_count
          = some (countNode .agent (runFull env fuel query agent_id M).trace))
    ∧ (∀ env fuel query agent_id M,
        ∀ e ∈ (runFull env fuel query agent_id M).trace,
          e.1 = .tools → ∃ k, e.2.iteration_count = some k ∧ k < M) := by
  refine ⟨?_, ?_, ?_, ?_⟩
  · intro env s n hn
    simp [nodeUpdate, hn]
  · intro s n hE hI hM
    simp [should_continue, hE, hI, hM]
  · intro env fuel q a M herr
    have h := runAux_iter_count env fuel .init (initialFull q a M) 0 rfl (fun _ => rfl)
    simp only [runFull] at herr ⊢
    simpa using h herr
  · intro env fuel q a M
    have hstep : ∀ node s effs s' nxt,
        (s.max_iterations = some M ∧
          (node = ExecNode.tools → ∃ k, s.iteration_count = some k ∧ k < M)) →
        nodeExec env node s = (effs, .ok (s', some nxt)) →
        (s'.max_iterations = some M ∧
          (nxt = ExecNode.tools → ∃ k, s'.iteration_count = some k ∧ k < M)) := by
      intro node s effs s' nxt hpre hx
      have hM' : s'.max_iterations = some M := by
        rw [nodeExec_max_eq env node s effs s' (some nxt) hx]
        exact hpre.1
      refine ⟨hM', ?_⟩
      intro hnt
      subst hnt
      obtain ⟨u, hU, hs, hR⟩ := nodeExec_ok_inv env node s effs s' (some .tools) hx
      obtain ⟨hnode, hsc⟩ := routeAfter_tools_inv node s' hR
      obtain ⟨ic, mi, hic, hmi, hlt⟩ := should_continue_tools_inv s' hsc
      rw [hM'] at hmi
      have hMeq : M = mi := Option.some.inj hmi
      exact ⟨ic, hic, by omega⟩
    intro e he het
    have h := runAux_trace_pre env
      (fun node s => s.max_iterations = some M ∧
        (node = ExecNode.tools → ∃ k, s.iteration_count = some k ∧ k < M))
      hstep fuel .init (initialFull q a M) ⟨rfl, fun hh => nomatch hh⟩ e he
    exact h.2 het

/-- A concrete environment whose model always requests one `navigate` call
and whose backend succeeds. -/
def envLoop : Env :=
  { createSession := .ok "sess-9"
    llm := fun _ =>
      ("checking", [⟨"navigate", [("url", "https://example.com")], "call-1"⟩])
    toolRun := fun _ _ => "Navigated successfully. page_id: p1, url: https://example.com" }

/-- C2, witness: concrete instances of all four parts — one reasoning pass
increments 0 to 1; the edge picks CLEANUP at a reached cap; a completed
capped run ends with `iteration_count` equal to its number of passes; and
the one DISPATCH entry of that run happened strictly below the cap. -/
theorem C2_iteration_discipline_witness :
    ((nodeUpdate envLoop .agent (initialFull "q" "agent-7" 2)).2
        = .ok { messages := [.ai "checking"
                  [⟨"navigate", [("url", "https://example.com")], "call-1"⟩]]
                iteration_count := some 1 })
    ∧ should_continue (initialFull "q" "agent-7" 0) = .ok "cleanup"
    ∧ (runFull envLoop 25 "q" "agent-7" 2).state.iteration_count
        = some (countNode .agent (runFull envLoop 25 "q" "agent-7" 2).trace)
    ∧ (∃ k, ((runFull envLoop 25 "q" "agent-7" 2).trace.get
          ⟨2, by decide⟩).2.iteration_count = some k ∧ k < 2) := by
  refine ⟨?_, ?_, ?_, ?_⟩
  · exact C2_iteration_discipline.1 envLoop (initialFull "q" "agent-7" 2) 0 rfl
  · exact C2_iteration_discipline.2.1 (initialFull "q" "agent-7" 0) 0 rfl rfl rfl
  · exact C2_iteration_discipline.2.2.1 envLoop 25 "q" "agent-7" 2 rfl
  · exact C2_iteration_discipline.2.2.2 envLoop 25 "q" "agent-7" 2 _
      (List.get_mem _ 2 _) rfl

/-- The `steps[-1]` mutation rewrites exactly the final element of the step
list and leaves every earlier element untouched. -/
theorem failLast_append (content : String) :
    ∀ (front : List WorkflowStep) (last : WorkflowStep),
      failLast content (front ++ [last])
        = front
            ++ [{ last with
                  success := false
                  detail := last.detail ++ " → " ++ content }]
  | [], _ => rfl
  | [_], _ => rfl
  | a :: b :: rest, last => by
      show a :: failLast content (b :: (rest ++ [last])) = _
      rw [show b :: (rest ++ [last]) = (b :: rest) ++ [last] from rfl]
      rw [failLast_append content (b :: rest) last]
      simp

/-- C5: during the `_extract_steps` scan, a Tool-result message whose text
begins with the failure marker `Error`, scanned while the step list is
non-empty, mutates exactly the most recently appended WorkflowStep —
positionally, with no use of the correlation id — setting `success=false`
and appending an arrow plus the error text to its detail; every other step
and the step counter are left untouched. -/
theorem C5_failure_marker_flips_last_step (front : List WorkflowStep)
    (last : WorkflowStep) (n : Nat) (rest tcid name : String) :
    extractStepsScan (front ++ [last], n) (.tool ("Error" ++ rest) tcid name)
      = (front
          ++ [{ last with
                success := false
                detail := last.detail ++ " → " ++ ("Error" ++ rest) }], n) := by
  have hne : (front ++ [last]).isEmpty = false := by
    cases front <;> rfl
  have hsw : pyStartsWith ("Error" ++ rest) "Error" = true := by
    simp [pyStartsWith, String.data_append, List.isPrefixOf_iff_prefix]
  simp only [extractStepsScan, hne, hsw]
  simp only [Bool.false_eq_true, if_false, if_true]
  rw [failLast_append]

/-- An AI message that counts as a final answer for the backward scan: it
carries no tool calls. -/
def isFinalAnswerAI : Msg → Bool
  | .ai _ [] => true
  | _ => false

/-- The backward scan returns the sentinel when no entry is a final-answer
AI message. -/
theorem extractAnswerGo_sentinel :
    ∀ l : List Msg, (∀ m ∈ l, isFinalAnswerAI m = false) →
      extractAnswerGo l = "The agent completed but did not produce a final answer."
  | [], _ => rfl
  | .ai c tcs :: rest, h => by
      have hhead := h _ (List.mem_cons_self _ _)
      have htcs : tcs.isEmpty = false := by
        cases tcs with
        | nil => simp [isFinalAnswerAI] at hhead
        | cons a l2 => rfl
      simp only [extractAnswerGo, htcs, Bool.false_eq_true, if_false]
      exact extractAnswerGo_sentinel rest (fun m hm => h m (List.mem_cons_of_mem _ hm))
  | .human c :: rest, h => by
      simp only [extractAnswerGo]
      exact extractAnswerGo_sentinel rest (fun m hm => h m (List.mem_cons_of_mem _ hm))
  | .system c :: rest, h => by
      simp only [extractAnswerGo]
      exact extractAnswerGo_sentinel rest (fun m hm => h m (List.mem_cons_of_mem _ hm))
  | .tool c t nm :: rest, h => by
      simp only [extractAnswerGo]
      exact extractAnswerGo_sentinel rest (fun m hm => h m (List.mem_cons_of_mem _ hm))

/-- The backward scan skips non-final entries and stops at the first
final-answer AI message. -/
theorem extractAnswerGo_finds (c : String) (r : List Msg) :
    ∀ l : List Msg, (∀ m ∈ l, isFinalAnswerAI m = false) →
      extractAnswerGo (l ++ .ai c [] :: r) = c
  | [], _ => rfl
  | .ai c2 tcs :: rest, h => by
      have hhead := h _ (List.mem_cons_self _ _)
      have htcs : tcs.isEmpty = false := by
        cases tcs with
        | nil => simp [isFinalAnswerAI] at hhead
        | cons a l2 => rfl
      show extractAnswerGo (.ai c2 tcs :: (rest ++ .ai c [] :: r)) = c
      simp only [extractAnswerGo, htcs, Bool.false_eq_true, if_false]
      exact extractAnswerGo_finds c r rest (fun m hm => h m (List.mem_cons_of_mem _ hm))
  | .human c2 :: rest, h => by
      show extractAnswerGo (.human c2 :: (rest ++ .ai c [] :: r)) = c
      simp only [extractAnswerGo]
      exact extractAnswerGo_finds c r rest (fun m hm => h m (List.mem_cons_of_mem _ hm))
  | .system c2 :: rest, h => by
      show extractAnswerGo (.system c2 :: (rest ++ .ai c [] :: r)) = c
      simp only [extractAnswerGo]
      exact extractAnswerGo_finds c r rest (fun m hm => h m (List.mem_cons_of_mem _ hm))
  | .tool c2 t nm :: rest, h => by
      show extractAnswerGo (.tool c2 t nm :: (rest ++ .ai c [] :: r)) = c
      simp only [extractAnswerGo]
      exact extractAnswerGo_finds c r rest (fun m hm => h m (List.mem_cons_of_mem _ hm))

/-- C6, counterexample: on a completed log with no final AI message the
code's sentinel is `"The agent completed but did not produce a final
answer."`, which is not the string the claim states. -/
theorem C6_counterexample :
    extract_answer [Msg.human "Agent ID: agent-1\nTask: q"]
        = "The agent completed but did not produce a final answer."
    ∧ "The agent completed but did not produce a final answer."
        ≠ "agent completed but produced no final answer" :=
  ⟨rfl, by decide⟩

/-- C6, amended: for every completed message log, the batch answer equals
the text of the last AI message that carries no tool calls (found by
scanning the log backward), and if no such AI message exists the answer
equals the fixed sentinel string `"The agent completed but did not produce
a final answer."`. -/
theorem C6_answer_extraction :
    (∀ messages : List Msg, (∀ m ∈ messages, isFinalAnswerAI m = false) →
        extract_answer messages
          = "The agent completed but did not produce a final answer.")
    ∧ (∀ (pre post : List Msg) (content : String),
        (∀ m ∈ post, isFinalAnswerAI m = false) →
        extract_answer (pre ++ .ai content [] :: post) = content) := by
  constructor
  · intro messages h
    exact extractAnswerGo_sentinel messages.reverse
      (fun m hm => h m (List.mem_reverse.mp hm))
  · intro pre post content h
    unfold extract_answer
    rw [show (pre ++ .ai content [] :: post).reverse
        = post.reverse ++ .ai content [] :: pre.reverse from by simp]
    exact extractAnswerGo_finds content pre.reverse post.reverse
      (fun m hm => h m (List.mem_reverse.mp hm))

/-- C6, witness: the sentinel on a log with no final AI message, and the
last no-tool-call AI text on a log that has one. -/
theorem C6_answer_extraction_witness :
    extract_answer [Msg.human "hi"]
        = "The agent completed but did not produce a final answer."
    ∧ extract_answer
        ([Msg.human "hi"] ++ Msg.ai "Paris." [] :: []) = "Paris." := by
  constructor
  · apply C6_answer_extraction.1
    intro m hm
    simp only [List.mem_singleton] at hm
    subst hm
    rfl
  · apply C6_answer_extraction.2
    intro m hm
    simp at hm

/-- The list `[start, start+1, ..., start+n-1]`: the shape of a gap-free
step numbering. -/
def contiguousFrom (start : Nat) : Nat → List Nat
  | 0 => []
  | n + 1 => start :: contiguousFrom (start + 1) n

theorem contiguousFrom_concat :
    ∀ (n start : Nat), contiguousFrom start (n + 1)
      = contiguousFrom start n ++ [start + n]
  | 0, start => by simp [contiguousFrom]
  | n + 1, start => by
      show start :: contiguousFrom (start + 1) (n + 1) = _
      rw [contiguousFrom_concat n (start + 1)]
      simp [contiguousFrom]
      omega

/-- The number of tool calls one message contributes to the trace. -/
def msgToolCallCount : Msg → Nat
  | .ai _ tcs => tcs.length
  | _ => 0

/-- The number of tool calls dispatched across a whole message log. -/
def totalToolCalls : List Msg → Nat
  | [] => 0
  | m :: rest => msgToolCallCount m + totalToolCalls rest

theorem failLast_map_num (content : String) :
    ∀ l : List WorkflowStep,
      (failLast content l).map (fun s => s.step_number)
        = l.map (fun s => s.step_number)
  | [] => rfl
  | [_] => rfl
  | a :: b :: rest => by
      have ih := failLast_map_num content (b :: rest)
      simp only [failLast, List.map_cons] at ih ⊢
      rw [ih]

theorem failLast_length (content : String) :
    ∀ l : List WorkflowStep, (failLast content l).length = l.length
  | [] => rfl
  | [_] => rfl
  | a :: b :: rest => by
      have ih := failLast_length content (b :: rest)
      simp only [failLast, List.length_cons] at ih ⊢
      rw [ih]

/-- The inner per-call fold keeps numbering contiguous and the counter one
past the end, and appends exactly one step per call. -/
theorem appendCallSteps_inv :
    ∀ (tcs : List ToolCall) (st : List WorkflowStep) (n : Nat),
      st.map (fun s => s.step_number) = contiguousFrom 1 st.length →
      n = st.length + 1 →
      ((appendCallSteps (st, n) tcs).1.map (fun s => s.step_number)
          = contiguousFrom 1 (appendCallSteps (st, n) tcs).1.length
        ∧ (appendCallSteps (st, n) tcs).2 = (appendCallSteps (st, n) tcs).1.length + 1
        ∧ (appendCallSteps (st, n) tcs).1.length = st.length + tcs.length)
  | [], st, n => by
      intro h1 h2
      exact ⟨h1, by simpa using h2, by simp [appendCallSteps]⟩
  | tc :: rest, st, n => by
      intro h1 h2
      have hstep : appendCallSteps (st, n) (tc :: rest)
          = appendCallSteps (st ++ [mkStep n tc], n + 1) rest := rfl
      rw [hstep]
      have h1' : (st ++ [mkStep n tc]).map (fun s => s.step_number)
          = contiguousFrom 1 (st ++ [mkStep n tc]).length := by
        rw [List.map_append, h1, List.length_append]
        simp only [List.map_cons, List.map_nil, List.length_cons, List.length_nil]
        rw [show st.length + (0 + 1) = st.length + 1 from by omega]
        rw [contiguousFrom_concat st.length 1]
        rw [h2]
        simp [mkStep, Nat.add_comm]
      have h2' : n + 1 = (st ++ [mkStep n tc]).length + 1 := by
        simp [List.length_append, h2]
      obtain ⟨a1, a2, a3⟩ := appendCallSteps_inv rest _ (n + 1) h1' h2'
      refine ⟨a1, a2, ?_⟩
      rw [a3]
      simp [List.length_append]
      omega

/-- One scan step keeps numbering contiguous, keeps the counter one past the
end, and grows the list by exactly the message's tool-call count. -/
theorem extractStepsScan_inv (m : Msg) :
    ∀ (st : List WorkflowStep) (n : Nat),
      st.map (fun s => s.step_number) = contiguousFrom 1 st.length →
      n = st.length + 1 →
      ((extractStepsScan (st, n) m).1.map (fun s => s.step_number)
          = contiguousFrom 1 (extractStepsScan (st, n) m).1.length
        ∧ (extractStepsScan (st, n) m).2 = (extractStepsScan (st, n) m).1.length + 1
        ∧ (extractStepsScan (st, n) m).1.length = st.length + msgToolCallCount m) := by
  intro st n h1 h2
  cases m with
  | ai content tcs =>
      by_cases he : tcs.isEmpty
      · have htcs : tcs = [] := by
          cases tcs with
          | nil => rfl
          | cons a l2 => simp at he
        subst htcs
        simp only [extractStepsScan, if_pos he]
        exact ⟨h1, by simpa using h2, by simp [msgToolCallCount]⟩
      · have he' : tcs.isEmpty = false := by simpa using he
        simp only [extractStepsScan, he', Bool.false_eq_true, if_false]
        exact appendCallSteps_inv tcs st n h1 h2
  | tool content tcid nm =>
      by_cases he : st.isEmpty
      · simp only [extractStepsScan, if_pos he]
        exact ⟨h1, by simpa using h2, by simp [msgToolCallCount]⟩
      · have he' : st.isEmpty = false := by simpa using he
        simp only [extractStepsScan, he', Bool.false_eq_true, if_false]
        by_cases hs : pyStartsWith content "Error" = true
        · simp only [hs, if_true]
          refine ⟨?_, ?_, ?_⟩
          · rw [failLast_map_num, failLast_length]
            exact h1
          · rw [failLast_length]
            simpa using h2
          · rw [failLast_length]
            simp [msgToolCallCount]
        · have hs' : pyStartsWith content "Error" = false := by simpa using hs
          simp only [hs', Bool.false_eq_true, if_false]
          exact ⟨h1, by simpa using h2, by simp [msgToolCallCount]⟩
  | human content =>
      exact ⟨h1, by simpa using h2, by simp [extractStepsScan, msgToolCallCount]⟩
  | system content =>
      exact ⟨h1, by simpa using h2, by simp [extractStepsScan, msgToolCallCount]⟩

/-- The whole scan preserves the numbering invariant and counts every tool
call exactly once. -/
theorem extractSteps_fold_inv :
    ∀ (messages : List Msg) (st : List WorkflowStep) (n : Nat),
      st.map (fun s => s.step_number) = contiguousFrom 1 st.length →
      n = st.length + 1 →
      (((messages.foldl extractStepsScan (st, n)).1.map (fun s => s.step_number)
          = contiguousFrom 1 (messages.foldl extractStepsScan (st, n)).1.length)
        ∧ (messages.foldl extractStepsScan (st, n)).1.length
            = st.length + totalToolCalls messages)
  | [], st, n => by
      intro h1 _
      exact ⟨h1, by simp [totalToolCalls]⟩
  | m :: rest, st, n => by
      intro h1 h2
      obtain ⟨s1, s2, s3⟩ := extractStepsScan_inv m st n h1 h2
      rcases hsc : extractStepsScan (st, n) m with ⟨st', n'⟩
      rw [hsc] at s1 s2 s3
      have hfold : (m :: rest).foldl extractStepsScan (st, n)
          = rest.foldl extractStepsScan (st', n') := by
        simp [List.foldl_cons, hsc]
      rw [hfold]
      obtain ⟨a1, a2⟩ := extractSteps_fold_inv rest st' n' s1 s2
      refine ⟨a1, ?_⟩
      rw [a2, s3]
      simp [totalToolCalls]
      omega

/-- C7: the batch trace extractor emits exactly one WorkflowStep per tool
call of every AI message that carries tool calls (so the list's length is
the total tool-call count of the log), and the `step_number` fields are
exactly `1, 2, ..., length` — contiguous from 1 with no gaps, however many
AI messages contributed calls. -/
theorem C7_one_step_per_call_contiguous (messages : List Msg) :
    (extract_steps messages).map (fun s => s.step_number)
        = contiguousFrom 1 (extract_steps messages).length
    ∧ (extract_steps messages).length = totalToolCalls messages := by
  have h := extractSteps_fold_inv messages [] 1 rfl rfl
  exact ⟨h.1, by simpa using h.2⟩

/-- C9: for a batch of tool-call requests carried by the last (AI) message,
the `tools` node never raises: it returns exactly one Tool message per
requested call, in order, each correlated by the call's id and named after
the call, with the registered tool's result for known names; and a name
outside the registry yields the synthesized `Error: Unknown tool '{name}'`
failure-marker text instead of an exception. -/
theorem C9_unknown_tool_never_raises (env : Env) (s : AgentState)
    (ms : List Msg) (content : String) (tcs : List ToolCall) :
    (nodeUpdate env .tools { s with messages := ms ++ [.ai content tcs] }
      = ([], .ok { messages := tcs.map
                     (fun tc => Msg.tool (toolResult env tc) tc.id tc.name)
                   current_page_id := pageIdUpdate (tcs.map
                     (fun tc => Msg.tool (toolResult env tc) tc.id tc.name)) }))
    ∧ (∀ name args tcid, registryNames.contains name = false →
        toolResult env ⟨name, args, tcid⟩
          = "Error: Unknown tool '" ++ name ++ "'") := by
  constructor
  · have hlast : ({ s with messages := ms ++ [.ai content tcs] }
        : AgentState).messages.getLast? = some (.ai content tcs) := by
      simp [List.getLast?_concat]
    simp only [nodeUpdate, hlast]
  · intro name args tcid h
    show (if registryNames.contains name = true then env.toolRun name args
          else "Error: Unknown tool '" ++ name ++ "'") = _
    rw [h]
    simp

/-- A concrete environment whose tools answer with a plain text. -/
def envPlain : Env :=
  { createSession := .ok "sess-9"
    llm := fun _ => ("", [])
    toolRun := fun _ _ => "done" }

/-- C9, witness: the unknown-name arm produces the failure-marker text, and
a dispatch of one known and one unknown tool name produces exactly two
correlated Tool messages. -/
theorem C9_unknown_tool_never_raises_witness :
    toolResult envPlain ⟨"teleport", [], "c2"⟩ = "Error: Unknown tool 'teleport'"
    ∧ nodeUpdate envPlain .tools
        { messages := [Msg.human "hi",
            Msg.ai "work" [⟨"navigate", [("url", "https://example.com")], "c1"⟩,
                           ⟨"teleport", [], "c2"⟩]] }
      = ([], .ok { messages :=
                     [Msg.tool "done" "c1" "navigate",
                      Msg.tool "Error: Unknown tool 'teleport'" "c2" "teleport"]
                   current_page_id := none }) := by
  constructor
  · exact (C9_unknown_tool_never_raises envPlain { messages := [] } [] "" []).2
      "teleport" [] "c2" (by decide)
  · exact ((C9_unknown_tool_never_raises envPlain { messages := [] }
      [Msg.human "hi"] "work"
      [⟨"navigate", [("url", "https://example.com")], "c1"⟩,
       ⟨"teleport", [], "c2"⟩]).1).trans (by rfl)

/-- One loop iteration of `stream_query` only ever yields in-body events
(`step_start`, `step_complete`, `step_error`, `thinking`). -/
theorem streamStep_body (acc : List ExtEvent × Nat × String) (ev : InternalEvent)
    (h : ∀ e ∈ acc.1, isBodyEvent e = true) :
    ∀ e ∈ (streamStep acc ev).1, isBodyEvent e = true := by
  cases ev with
  | onToolStart name input =>
      intro e he
      simp only [streamStep] at he
      rcases List.mem_append.mp he with h1 | h1
      · exact h e h1
      · simp only [List.mem_singleton] at h1
        subst h1
        rfl
  | onToolEnd name output =>
      intro e he
      simp only [streamStep] at he
      split at he <;>
        rcases List.mem_append.mp he with h1 | h1 <;>
          first
            | exact h e h1
            | (simp only [List.mem_singleton] at h1; subst h1; rfl)
  | onChatModelStream content hasToolCalls =>
      intro e he
      simp only [streamStep] at he
      split at he <;> exact h e he
  | onChatModelStart =>
      intro e he
      simp only [streamStep] at he
      split at he
      · rcases List.mem_append.mp he with h1 | h1
        · exact h e h1
        · simp only [List.mem_singleton] at h1
          subst h1
          rfl
      · exact h e he
  | otherEvent =>
      intro e he
      exact h e he

/-- The whole stream loop only yields in-body events. -/
theorem streamFold_body :
    ∀ (events : List InternalEvent) (acc : List ExtEvent × Nat × String),
      (∀ e ∈ acc.1, isBodyEvent e = true) →
      ∀ e ∈ (events.foldl streamStep acc).1, isBodyEvent e = true
  | [], _acc => fun h => h
  | ev :: rest, acc => fun h =>
      streamFold_body rest (streamStep acc ev) (streamStep_body acc ev h)

/-- The stream loop's final answer buffer is the initial buffer followed by
the full accumulation over the feed. -/
theorem streamFold_answer :
    ∀ (events : List InternalEvent) (out : List ExtEvent) (n : Nat) (buf : String),
      (events.foldl streamStep (out, n, buf)).2.2 = buf ++ accumAnswer events
  | [], out, n, buf => by
      show buf = buf ++ ""
      simp
  | .onToolStart name input :: rest, out, n, buf => by
      show (rest.foldl streamStep (streamStep (out, n, buf)
          (.onToolStart name input))).2.2 = _
      rw [show streamStep (out, n, buf) (.onToolStart name input)
          = (out ++ [.step_start (n + 1) name (format_tool_detail name input)],
             n + 1, buf) from rfl]
      rw [streamFold_answer rest _ (n + 1) buf]
      rfl
  | .onToolEnd name output :: rest, out, n, buf => by
      show (rest.foldl streamStep (streamStep (out, n, buf) (.onToolEnd name output))).2.2 = _
      by_cases hs : pyStartsWith output "Error" = true
      · rw [show streamStep (out, n, buf) (.onToolEnd name output)
            = (out ++ [.step_error n name output], n, buf) from by
              simp [streamStep, hs]]
        rw [streamFold_answer rest _ n buf]
        rfl
      · have hs' : pyStartsWith output "Error" = false := by simpa using hs
        rw [show streamStep (out, n, buf) (.onToolEnd name output)
            = (out ++ [.step_complete n name], n, buf) from by
              simp [streamStep, hs', Bool.false_eq_true]]
        rw [streamFold_answer rest _ n buf]
        rfl
  | .onChatModelStream content hasToolCalls :: rest, out, n, buf => by
      show (rest.foldl streamStep (streamStep (out, n, buf)
          (.onChatModelStream content hasToolCalls))).2.2 = _
      by_cases hc : (!content.isEmpty && !hasToolCalls) = true
      · rw [show streamStep (out, n, buf) (.onChatModelStream content hasToolCalls)
            = (out, n, buf ++ content) from by simp [streamStep, hc]]
        rw [streamFold_answer rest out n (buf ++ content)]
        show buf ++ content ++ accumAnswer rest
            = buf ++ ((if !content.isEmpty && !hasToolCalls then content else "")
                ++ accumAnswer rest)
        rw [if_pos hc]
        rw [String.append_assoc]
      · have hc' : (!content.isEmpty && !hasToolCalls) = false := by simpa using hc
        rw [show streamStep (out, n, buf) (.onChatModelStream content hasToolCalls)
            = (out, n, buf) from by simp [streamStep, hc', Bool.false_eq_true]]
        rw [streamFold_answer rest out n buf]
        show buf ++ accumAnswer rest
            = buf ++ ((if !content.isEmpty && !hasToolCalls then content else "")
                ++ accumAnswer rest)
        rw [hc']
        rfl
  | .onChatModelStart :: rest, out, n, buf => by
      show (rest.foldl streamStep (streamStep (out, n, buf) .onChatModelStart)).2.2 = _
      by_cases hn : n > 0
      · rw [show streamStep (out, n, buf) .onChatModelStart
            = (out ++ [.thinking "Agent is reasoning..."], n, buf) from by
              simp [streamStep, hn]]
        rw [streamFold_answer rest _ n buf]
        rfl
      · rw [show streamStep (out, n, buf) .onChatModelStart
            = (out, n, buf) from by simp [streamStep, hn]]
        rw [streamFold_answer rest out n buf]
        rfl
  | .otherEvent :: rest, out, n, buf => by
      show (rest.foldl streamStep (out, n, buf)).2.2 = _
      rw [streamFold_answer rest out n buf]
      rfl

/-- C8: the stream translator's output always ends with exactly one terminal
event.  When the internal feed is exhausted without an uncaught failure,
exactly two synthesized events are appended after the loop's in-body events:
`answer_complete` carrying the full accumulated answer buffer, then `done`;
when the feed ends in an uncaught failure, it is caught exactly once at the
outer boundary and converted into a single terminal `error` event after the
in-body events — in both cases no terminal event occurs earlier. -/
theorem C8_stream_terminal_events (events : List InternalEvent) (m : String) :
    (∃ body, stream_query events none
        = body ++ [.answer_complete (accumAnswer events), .done true]
        ∧ ∀ e ∈ body, isBodyEvent e = true)
    ∧ (∃ body, stream_query events (some m) = body ++ [.error m]
        ∧ ∀ e ∈ body, isBodyEvent e = true) := by
  constructor
  · refine ⟨(events.foldl streamStep ([], 0, "")).1, ?_, ?_⟩
    · show (events.foldl streamStep ([], 0, "")).1
          ++ [.answer_complete (events.foldl streamStep ([], 0, "")).2.2, .done true]
        = _
      rw [streamFold_answer events [] 0 ""]
      simp
    · exact streamFold_body events ([], 0, "") (by simp)
  · refine ⟨(events.foldl streamStep ([], 0, "")).1, rfl, ?_⟩
    exact streamFold_body events ([], 0, "") (by simp)

/-- A concrete internal feed: one reasoning pass, one tool round trip, then
two answer tokens. -/
def demoFeed : List InternalEvent :=
  [.onChatModelStart,
   .onToolStart "navigate" [("url", "https://example.com")],
   .onToolEnd "navigate" "Navigated successfully. page_id: p1, url: https://example.com",
   .onChatModelStart,
   .onChatModelStream "The answer" false,
   .onChatModelStream " is 42." false]

/-- C8, witness: on the concrete feed the exhausted stream ends in `done`
preceded by `answer_complete` with the accumulated buffer, and the failed
stream ends in a single `error`. -/
theorem C8_stream_terminal_events_witness :
    (stream_query demoFeed none).getLast? = some (.done true)
    ∧ (stream_query demoFeed (some "boom")).getLast? = some (.error "boom")
    ∧ accumAnswer demoFeed = "The answer is 42." := by
  refine ⟨?_, ?_, ?_⟩
  · obtain ⟨body, hb, -⟩ := (C8_stream_terminal_events demoFeed "boom").1
    rw [hb]
    rw [show body ++ [ExtEvent.answer_complete (accumAnswer demoFeed), ExtEvent.done true]
        = (body ++ [ExtEvent.answer_complete (accumAnswer demoFeed)])
            ++ [ExtEvent.done true] from by simp]
    rw [List.getLast?_concat]
  · obtain ⟨body, hb, -⟩ := (C8_stream_terminal_events demoFeed "boom").2
    rw [hb]
    rw [List.getLast?_concat]
  · rfl
